import Mathlib

/-!
Shallow embedding of the core lot-accounting code of `sol-cgt`
(`sol_cgt/types.py`, `sol_cgt/utils.py`, `sol_cgt/accounting/lots.py`,
`sol_cgt/accounting/methods.py`, `sol_cgt/accounting/engine.py`,
`sol_cgt/reconciliation/transfers.py`).

Modelling conventions:
* `Decimal` values are modelled as exact rationals (`Dec := ℚ`); every place
  where the source explicitly quantizes (`utils.quantize_aud`,
  `LotLedger.update_remaining`, `TokenAmount` derivation) is modelled with an
  explicit round-half-even quantization, which is Python `Decimal`'s default
  rounding mode.
* `datetime` timestamps are modelled as integer epoch seconds;
  `timedelta.days` is floor division by 86400.
* The open `event.raw` dictionary is modelled as a structure holding exactly
  the keys the engine reads; an absent key is `none`.
* Exceptions are modelled with `Except`.  Four functions of `engine.py`
  (`_handle_external_return`, `_warn_missing_price`, `_convert_usd_hint`,
  `_external_wallet_id`) are written in the source file indented inside the
  body of the module-level function `_append_note`, after its final `return`:
  they are unreachable local definitions, not methods of `AccountingEngine`.
  Attribute access `self._warn_missing_price` (and the other three) therefore
  raises `AttributeError` at runtime; this is modelled by the
  `EngineError.attributeError` constructor at the exact places the class body
  dereferences these names.  In particular, the warning list and the
  missing-price de-duplication set that the source threads into
  `_fee_to_aud`/`_resolve_price` are never touched by these functions (the
  only statements that would touch them live in the dead block), so those
  parameters are not threaded here.
* Python object identity for `AcquisitionLot` is modelled by `lot_id`
  (construction sites give distinct ids); ledger mutation of a lot is
  modelled by rewriting the ledger entry having that `lot_id`.
-/

namespace SolCgt

deriving instance DecidableEq for Except

/-- Python `Decimal` values, modelled as exact rationals. -/
abbrev Dec := ℚ

/-- Floor of a rational (`Rat.den` is positive, so flooring is floor
division of the numerator by the denominator); written out so that it
computes by kernel reduction. -/
def ratFloor (x : ℚ) : ℤ := x.num.fdiv (x.den : ℤ)

/-- Round to the nearest integer, ties to even: Python `Decimal`'s default
`ROUND_HALF_EVEN` rounding mode used by `quantize`. -/
def roundHalfEven (x : ℚ) : ℤ :=
  let f : ℤ := ratFloor x
  let r : ℚ := x - f
  if r < 1/2 then f
  else if 1/2 < r then f + 1
  else if f % 2 = 0 then f else f + 1

/-- `10 ^ d` as a rational, written as a cast natural power so that it
computes by kernel reduction. -/
def pow10 (d : ℕ) : ℚ := ((10 ^ d : ℕ) : ℚ)

/-- `value.quantize(Decimal(10) ** -d)` with default rounding. -/
def quantizeScale (d : ℕ) (x : ℚ) : ℚ :=
  (roundHalfEven (x * pow10 d) : ℚ) / pow10 d

/-- `utils.quantize_aud`: quantize to cents (`Decimal("0.01")`). -/
def quantize_aud (x : Dec) : Dec := quantizeScale 2 x

/-- The 9-decimal-place quantization used by `LotLedger.update_remaining`
(`Decimal("0.000000001")`). -/
def quantize9 (x : Dec) : Dec := quantizeScale 9 x

/-- `utils.holding_period_days`: `(disposed - acquired).days`; `timedelta.days`
floors toward minus infinity. -/
def holding_period_days (acquired disposed : Int) : Int :=
  (disposed - acquired).fdiv 86400

/-- Python string `<` (code-point lexicographic), written out over the
character list so that it computes by kernel reduction. -/
def strLtB : List Char → List Char → Bool
  | [], [] => false
  | [], _ :: _ => true
  | _ :: _, [] => false
  | a :: as, b :: bs =>
    if a.toNat < b.toNat then true
    else if b.toNat < a.toNat then false
    else strLtB as bs

/-- Python string `<=` used by the tuple sort keys. -/
def strLe (a b : String) : Bool := strLtB a.data b.data || a == b

/-- `sol_cgt/types.py` `TokenAmount` (the resolved model: `amount` is the
field value after pydantic validation). -/
structure TokenAmount where
  mint : String
  symbol : Option String := none
  decimals : ℕ
  amount_raw : ℤ
  amount : Dec
  deriving Repr, DecidableEq

/-- Constructor semantics of `TokenAmount`: the `_fill_amount` model
validator keeps a caller-supplied `amount` when one is given and not `None`;
otherwise the amount is derived as
`(Decimal(amount_raw) * 10 ** -decimals).quantize(10 ** -decimals)`.
(The `_derive_amount` field validator then keeps any `Decimal` value as-is.) -/
def mkTokenAmount (mint : String) (symbol : Option String) (decimals : ℕ)
    (amount_raw : ℤ) (amount? : Option Dec) : TokenAmount :=
  { mint := mint
    symbol := symbol
    decimals := decimals
    amount_raw := amount_raw
    amount :=
      match amount? with
      | some a => a
      | none => quantizeScale decimals ((amount_raw : ℚ) / pow10 decimals) }

/-- The keys of the open `event.raw` dictionary that the accounting engine
reads; an absent key is `none`. -/
structure RawData where
  signature : Option String := none
  proceeds_aud : Option Dec := none
  proceeds_hint_aud : Option Dec := none
  proceeds_hint_usd : Option Dec := none
  cost_aud : Option Dec := none
  cost_hint_aud : Option Dec := none
  cost_hint_usd : Option Dec := none
  price_aud_hint : Option Dec := none
  swap_hint_missing : Option String := none
  decimals_defaulted_mints : List String := []
  deriving Repr, DecidableEq

/-- `sol_cgt/types.py` `NormalizedEvent` (the fields the engine and the
transfer reconciler read; `tags` is only written, never read, by them). -/
structure NormalizedEvent where
  id : String
  ts : Int
  kind : String
  base_token : Option TokenAmount := none
  quote_token : Option TokenAmount := none
  fee_sol : Dec := 0
  wallet : String
  counterparty : Option String := none
  raw : RawData := {}
  deriving Repr, DecidableEq

/-- `sol_cgt/types.py` `AcquisitionLot`. -/
structure AcquisitionLot where
  lot_id : String
  wallet : String
  ts : Int
  token_mint : String
  token_symbol : Option String := none
  qty_acquired : Dec
  unit_cost_aud : Dec
  fees_aud : Dec
  remaining_qty : Dec
  source_event : Option String := none
  source_type : Option String := none
  deriving Repr, DecidableEq

/-- `sol_cgt/types.py` `DisposalRecord`. -/
structure DisposalRecord where
  event_id : String
  wallet : String
  ts : Int
  token_mint : String
  token_symbol : Option String := none
  qty_disposed : Dec
  proceeds_aud : Dec
  cost_base_aud : Dec
  fees_aud : Dec
  gain_loss_aud : Dec
  long_term : Bool
  held_days : Int
  method : String
  signature : Option String := none
  notes : Option String := none
  deriving Repr, DecidableEq

/-- `sol_cgt/types.py` `LotMoveRecord` (`lots_consumed`/`lots_created` are
lists of `lot_id`/`qty` pairs). -/
structure LotMoveRecord where
  tx_signature : String
  ts : Int
  src_wallet : String
  dst_wallet : String
  mint : String
  symbol : Option String := none
  amount : Dec
  fee_aud : Dec
  lots_consumed : List (String × Dec) := []
  lots_created : List (String × Dec) := []
  deriving Repr, DecidableEq

/-- `sol_cgt/types.py` `WarningRecord`. -/
structure WarningRecord where
  ts : Int
  wallet : Option String := none
  signature : Option String := none
  code : String
  message : String
  deriving Repr, DecidableEq

/-- `sol_cgt/types.py` `MissingLotIssue`. -/
structure MissingLotIssue where
  wallet : String
  mint : String
  symbol : Option String := none
  ts : Int
  signature : Option String := none
  event_id : String
  event_type : String
  required_qty : Dec
  available_qty : Dec
  shortfall_qty : Dec
  message : String
  deriving Repr, DecidableEq

/-- `sol_cgt/accounting/methods.py` `LotSelectionError`.  The engine re-raises
it with a `partial_result` attachment; no field of that attachment is read
anywhere in the repository, so only `message` and `issue` are modelled. -/
structure LotSelectionError where
  message : String
  issue : Option MissingLotIssue := none
  deriving Repr, DecidableEq

/-- The `issue_context` dictionary built by `engine._issue_context`. -/
structure IssueContext where
  wallet : String
  mint : String
  symbol : Option String
  ts : Int
  signature : Option String
  event_id : String
  event_type : String
  deriving Repr, DecidableEq

/-- `methods._build_missing_lot_issue`: `None` without a context (the
context, when built by `_issue_context`, always carries a timestamp). -/
def buildMissingLotIssue (context : Option IssueContext)
    (required_qty available_qty : Dec) (message : String) :
    Option MissingLotIssue :=
  context.map fun c =>
    { wallet := c.wallet
      mint := c.mint
      symbol := c.symbol
      ts := c.ts
      signature := c.signature
      event_id := c.event_id
      event_type := c.event_type
      required_qty := required_qty
      available_qty := available_qty
      shortfall_qty :=
        if 0 < required_qty - available_qty then required_qty - available_qty else 0
      message := message }

/-- `methods.SpecificLotMap`: mapping from event id to an ordered
`(lot_id, qty)` plan. -/
structure SpecificLotMap where
  mapping : List (String × List (String × Dec))
  deriving Repr, DecidableEq

/-- `SpecificLotMap.lots_for`. -/
def SpecificLotMap.lots_for (m : SpecificLotMap) (event_id : String) :
    List (String × Dec) :=
  ((m.mapping.find? (fun p => p.1 == event_id)).map Prod.snd).getD []

/-- Stable insertion of one element: the new element goes after every
existing element that compares less-or-equal, matching the stability of
Python `sorted`. -/
def insertStable (le : α → α → Bool) (a : α) : List α → List α
  | [] => [a]
  | b :: bs => if le b a then b :: insertStable le a bs else a :: b :: bs

/-- Stable sort by a boolean less-or-equal test (model of Python `sorted`). -/
def sortStable (le : α → α → Bool) (xs : List α) : List α :=
  xs.foldl (fun acc a => insertStable le a acc) []

/-- The `(lot.ts, lot.lot_id)` sort key of FIFO ordering (and of
`LotLedger.add_lot`), compared as a Python tuple. -/
def lotTsIdLe (a b : AcquisitionLot) : Bool :=
  a.ts < b.ts || (a.ts == b.ts && strLe a.lot_id b.lot_id)

/-- The `(lot.unit_cost_aud, lot.ts)` sort key of HIFO ordering, compared as
a Python tuple (ascending; HIFO sorts with `reverse=True`). -/
def lotCostTsLe (a b : AcquisitionLot) : Bool :=
  a.unit_cost_aud < b.unit_cost_aud ||
    (a.unit_cost_aud == b.unit_cost_aud && a.ts ≤ b.ts)

/-- `methods.order_lots`.  `sorted(..., reverse=True)` is the stable
descending sort, modelled by flipping the comparison. -/
def order_lots (lots : List AcquisitionLot) (method : String) :
    Except LotSelectionError (List AcquisitionLot) :=
  let m := method.toUpper
  if m = "FIFO" then .ok (sortStable lotTsIdLe lots)
  else if m = "LIFO" then .ok (sortStable (fun a b => lotTsIdLe b a) lots)
  else if m = "HIFO" then .ok (sortStable (fun a b => lotCostTsLe b a) lots)
  else .error { message := "Unsupported method: " ++ method }

/-- The dict comprehension building `lot_lookup` in the SPECIFIC branch of
`methods.allocate`: a later lot with a duplicate id overwrites an earlier
one. -/
def lotLookup (available : List AcquisitionLot) (lot_id : String) :
    Option AcquisitionLot :=
  available.reverse.find? (fun l => l.lot_id == lot_id)

/-- The `for lot_id, lot_qty in selections` loop of the SPECIFIC branch of
`methods.allocate`, building the plan or failing on the first missing or
insufficient lot. -/
def buildSpecificPlan (available : List AcquisitionLot) (event_id : String)
    (issue_context : Option IssueContext) (qty available_qty : Dec) :
    List (String × Dec) → Except LotSelectionError (List (AcquisitionLot × Dec))
  | [] => .ok []
  | (lot_id, lot_qty) :: rest =>
    match lotLookup available lot_id with
    | none =>
      .error { message := "Lot " ++ lot_id ++ " not available for " ++ event_id }
    | some lot =>
      if lot.remaining_qty < lot_qty then
        .error { message := "Lot " ++ lot_id ++ " insufficient quantity for " ++ event_id
                 issue := buildMissingLotIssue issue_context qty available_qty
                   ("Lot " ++ lot_id ++ " insufficient quantity for " ++ event_id) }
      else do
        let plan ← buildSpecificPlan available event_id issue_context qty available_qty rest
        .ok ((lot, lot_qty) :: plan)

/-- The greedy consumption loop of `methods.allocate` for FIFO/LIFO/HIFO:
walk the ordered candidates taking `min(lot.remaining_qty, remaining)`;
returns the allocation together with the unsatisfied remainder. -/
def greedyAllocate (ordered : List AcquisitionLot) (remaining : Dec) :
    List (AcquisitionLot × Dec) × Dec :=
  match ordered with
  | [] => ([], remaining)
  | lot :: rest =>
    if remaining ≤ 0 then ([], remaining)
    else
      let take := min lot.remaining_qty remaining
      if 0 < take then
        let res := greedyAllocate rest (remaining - take)
        ((lot, take) :: res.1, res.2)
      else greedyAllocate rest remaining

/-- `sum((alloc for _, alloc in plan), Decimal("0"))`. -/
def planTotal (plan : List (AcquisitionLot × Dec)) : Dec :=
  plan.foldl (fun acc p => acc + p.2) 0

/-- `sum(lot.remaining_qty for lot in available)`. -/
def availableTotal (lots : List AcquisitionLot) : Dec :=
  lots.foldl (fun acc l => acc + l.remaining_qty) 0

/-- `methods.allocate`.  `event_id = none` models Python `event_id=None`;
Python `not event_id` is also true for the empty string. -/
def allocate (lots : List AcquisitionLot) (qty : Dec) (method : String)
    (specific : Option SpecificLotMap := none)
    (event_id : Option String := none)
    (issue_context : Option IssueContext := none) :
    Except LotSelectionError (List (AcquisitionLot × Dec)) :=
  if qty ≤ 0 then .ok []
  else
    let available := lots.filter (fun l => decide (0 < l.remaining_qty))
    let available_qty := availableTotal available
    if available.isEmpty then
      .error { message := "No acquisition lots available"
               issue := buildMissingLotIssue issue_context qty available_qty
                 "No acquisition lots available" }
    else if method.toUpper = "SPECIFIC" then
      match specific, event_id with
      | some sp, some eid =>
        if eid = "" then
          .error { message := "Specific ID method requires mapping and event_id" }
        else
          let selections := sp.lots_for eid
          if selections.isEmpty then
            .error { message := "No specific lots defined for " ++ eid }
          else do
            let plan ← buildSpecificPlan available eid issue_context qty available_qty
              selections
            if planTotal plan ≠ qty then
              .error { message := "Specific allocation quantity mismatch for " ++ eid }
            else .ok plan
      | _, _ =>
        .error { message := "Specific ID method requires mapping and event_id" }
    else do
      let ordered ← order_lots available method
      let res := greedyAllocate ordered qty
      if 0 < res.2 then
        .error { message := "Insufficient lot quantity to satisfy disposal"
                 issue := buildMissingLotIssue issue_context qty available_qty
                   "Insufficient lot quantity to satisfy disposal" }
      else .ok res.1

/-- `sol_cgt/accounting/lots.py` `LotLedger`: the flattened store.  The
source groups lots per `(wallet, token_mint)` and keeps each group sorted by
`(ts, lot_id)`; since `lots_for` is the only ordered read, the ledger is
modelled as the insertion-ordered list with the sort applied on retrieval
(identical for the stable sort). -/
def add_lot (ledger : List AcquisitionLot) (lot : AcquisitionLot) :
    List AcquisitionLot :=
  ledger ++ [lot]

/-- `LotLedger.lots_for`: snapshot of the `(wallet, mint)` group, sorted by
`(ts, lot_id)`. -/
def lots_for (ledger : List AcquisitionLot) (wallet mint : String) :
    List AcquisitionLot :=
  sortStable lotTsIdLe
    (ledger.filter (fun l => l.wallet == wallet && l.token_mint == mint))

/-- `LotLedger.update_remaining` on the value:
`(remaining - qty_used).quantize(Decimal("0.000000001"))`, clamped at 0. -/
def update_remaining_val (remaining qty_used : Dec) : Dec :=
  let r := quantize9 (remaining - qty_used)
  if r < 0 then 0 else r

/-- In-place mutation of a lot object shared between the ledger and an
allocation, modelled by rewriting the ledger entry with the same `lot_id`. -/
def setLot (ledger : List AcquisitionLot) (lot : AcquisitionLot) :
    List AcquisitionLot :=
  ledger.map (fun l => if l.lot_id == lot.lot_id then lot else l)

/-- Current state of a lot object, read back from the ledger by identity. -/
def getLot (ledger : List AcquisitionLot) (lot_id : String) :
    Option AcquisitionLot :=
  ledger.find? (fun l => l.lot_id == lot_id)

/-- `engine.allocate_fee_over_consumed_parts`: proportional shares for all
but the last consumed part, the remainder to the last. -/
def allocate_fee_over_consumed_parts
    (consumed_parts : List (AcquisitionLot × Dec)) (fee_aud : Dec) :
    List Dec :=
  if consumed_parts.isEmpty then []
  else
    let total_qty := planTotal consumed_parts
    if fee_aud = 0 ∨ total_qty = 0 then consumed_parts.map (fun _ => 0)
    else
      let allocs := consumed_parts.dropLast.map
        (fun p => fee_aud * (p.2 / total_qty))
      allocs ++ [fee_aud - allocs.foldl (· + ·) 0]

/-- `sol_cgt/reconciliation/transfers.py` `TransferMatch`. -/
structure TransferMatch where
  out_event : NormalizedEvent
  in_event : NormalizedEvent
  deriving Repr, DecidableEq

/-- The injected price provider, `price_aud(mint, ts, context=...)`
returning `None` for a merely-missing price.  The engine treats it as a pure
function of mint and timestamp (the `context` argument is an open hint bag
consumed only by concrete providers, not by the engine itself). -/
abbrev PriceProvider := String → Int → Option Dec

/-- Runtime exceptions escaping `AccountingEngine` methods.
`attributeError name` models Python's `AttributeError` raised when the class
body dereferences `self.<name>` for one of the four functions that the
source file accidentally nests (dead) inside `_append_note` instead of the
class body. -/
inductive EngineError where
  | lotSelection (exc : LotSelectionError)
  | attributeError (name : String)
  | valueError (message : String)
  deriving Repr, DecidableEq

/-- Constructor state of `AccountingEngine` (`__init__` upper-cases the
method once; `method.toUpper` is applied at each read, which is the same
because upper-casing is idempotent). -/
structure EngineConfig where
  method : String := "FIFO"
  price_aud : PriceProvider
  specific : Option SpecificLotMap := none
  long_term_days : Int := 365

/-- `AccountingEngine._fee_to_aud`.  A missing SOL price for a nonzero fee
reaches `self._warn_missing_price`, which is not an attribute of the class
(dead code nested in `_append_note`), so an `AttributeError` is raised. -/
def fee_to_aud (cfg : EngineConfig) (e : NormalizedEvent) :
    Except EngineError Dec :=
  if e.fee_sol = 0 then .ok 0
  else
    match cfg.price_aud "SOL" e.ts with
    | none => .error (.attributeError "_warn_missing_price")
    | some price => .ok (quantize_aud (e.fee_sol * price))

/-- `AccountingEngine._resolve_price`.  When the provider misses, a numeric
scalar `price_aud` hint in `raw` is returned; otherwise the call to
`self._warn_missing_price` raises `AttributeError` (dead-code nesting, see
above), so the `None` return on the final path is unreachable. -/
def resolve_price (cfg : EngineConfig) (e : NormalizedEvent)
    (token : TokenAmount) : Except EngineError (Option Dec) :=
  match cfg.price_aud token.mint e.ts with
  | some price => .ok (some price)
  | none =>
    match e.raw.price_aud_hint with
    | some v => .ok (some v)
    | none => .error (.attributeError "_warn_missing_price")

/-- `AccountingEngine._resolve_proceeds`: explicit `proceeds_aud`, then
`proceeds_hint_aud`, then `proceeds_hint_usd` (whose conversion calls
`self._convert_usd_hint`, not an attribute of the class — dead-code nesting
— hence `AttributeError`), then quote price × qty, then base price × qty. -/
def resolve_proceeds (cfg : EngineConfig) (e : NormalizedEvent)
    (base : TokenAmount) (quote : Option TokenAmount) :
    Except EngineError Dec :=
  match e.raw.proceeds_aud with
  | some v => .ok v
  | none =>
  match e.raw.proceeds_hint_aud with
  | some v => .ok v
  | none =>
  match e.raw.proceeds_hint_usd with
  | some _ => .error (.attributeError "_convert_usd_hint")
  | none =>
  match quote with
  | some q => do
    let price ← resolve_price cfg e q
    match price with
    | none => .ok 0
    | some p => .ok (quantize_aud (p * q.amount))
  | none => do
    let price ← resolve_price cfg e base
    match price with
    | none => .ok 0
    | some p => .ok (quantize_aud (p * base.amount))

/-- `engine._issue_context`. -/
def issue_context (e : NormalizedEvent) (token : TokenAmount) : IssueContext :=
  { wallet := e.wallet
    mint := token.mint
    symbol := token.symbol
    ts := e.ts
    signature := e.raw.signature
    event_id := e.id
    event_type := e.kind }

/-- The `for lot, qty_used in allocation` loop of
`AccountingEngine._handle_disposal`: builds one `DisposalRecord` per
consumed part and mutates the consumed lot (fee drain, remaining
decrement).  The lot's current state is read back from the ledger by
identity. -/
def disposalLoop (cfg : EngineConfig) (e : NormalizedEvent)
    (base : TokenAmount) (gross_proceeds fee_aud : Dec)
    (ledger : List AcquisitionLot) :
    List (AcquisitionLot × Dec) → List DisposalRecord × List AcquisitionLot
  | [] => ([], ledger)
  | (lotSnap, qty_used) :: rest =>
    let lot := (getLot ledger lotSnap.lot_id).getD lotSnap
    let portion := if 0 < base.amount then qty_used / base.amount else 0
    let remaining_qty :=
      if lot.remaining_qty ≠ 0 then lot.remaining_qty else lot.qty_acquired
    let lot_fee_share :=
      if remaining_qty ≠ 0 then lot.fees_aud * (qty_used / remaining_qty) else 0
    let lot_cost := quantize_aud (lot.unit_cost_aud * qty_used)
    let fee_share := quantize_aud (fee_aud * portion)
    let proceeds_share := quantize_aud (gross_proceeds * portion)
    let cost_base := lot_cost + lot_fee_share
    let gain_loss := quantize_aud (proceeds_share - fee_share - cost_base)
    let held_days := holding_period_days lot.ts e.ts
    let record : DisposalRecord :=
      { event_id := e.id
        wallet := e.wallet
        ts := e.ts
        token_mint := base.mint
        token_symbol := base.symbol
        qty_disposed := qty_used
        proceeds_aud := proceeds_share
        cost_base_aud := cost_base
        fees_aud := fee_share
        gain_loss_aud := gain_loss
        long_term := cfg.long_term_days ≤ held_days
        held_days := held_days
        method := cfg.method.toUpper
        signature := e.raw.signature
        notes := some ("lot_id=" ++ lot.lot_id) }
    let fees1 := lot.fees_aud - lot_fee_share
    let lot1 := { lot with
      fees_aud := if fees1 < 0 then 0 else fees1
      remaining_qty := update_remaining_val lot.remaining_qty qty_used }
    let res := disposalLoop cfg e base gross_proceeds fee_aud (setLot ledger lot1) rest
    (record :: res.1, res.2)

/-- `AccountingEngine._handle_disposal`. -/
def handle_disposal (cfg : EngineConfig) (ledger : List AcquisitionLot)
    (e : NormalizedEvent) (base : TokenAmount)
    (proceeds_aud fee_aud : Dec) :
    Except EngineError (List DisposalRecord × List AcquisitionLot) := do
  let lots := lots_for ledger e.wallet base.mint
  let allocation ←
    (allocate lots base.amount cfg.method.toUpper cfg.specific (some e.id)
      (some (issue_context e base))).mapError .lotSelection
  if allocation.isEmpty then
    .error (.lotSelection { message := "No lots available for disposal " ++ e.id })
  else
    .ok (disposalLoop cfg e base proceeds_aud fee_aud ledger allocation)

/-- `AccountingEngine._handle_acquisition` (cost priority: explicit
`cost_aud`, `cost_hint_aud`, `cost_hint_usd` — whose conversion raises
`AttributeError`, dead-code nesting — the proceeds hint, then a resolved
price).  Returns the created lot and the updated ledger. -/
def handle_acquisition (cfg : EngineConfig) (ledger : List AcquisitionLot)
    (e : NormalizedEvent) (quote : TokenAmount)
    (proceeds_hint : Option Dec) (fee_aud : Dec) :
    Except EngineError (AcquisitionLot × List AcquisitionLot) :=
  let qty := quote.amount
  if qty ≤ 0 then .error (.valueError "Acquisition quantity must be positive")
  else do
    let total_cost ←
      match e.raw.cost_aud with
      | some v => Except.ok v
      | none =>
      match e.raw.cost_hint_aud with
      | some v => Except.ok v
      | none =>
      match e.raw.cost_hint_usd with
      | some _ => Except.error (.attributeError "_convert_usd_hint")
      | none =>
      match proceeds_hint with
      | some v => Except.ok v
      | none => do
        let price ← resolve_price cfg e quote
        match price with
        | none => Except.ok (0 : Dec)
        | some p => Except.ok (quantize_aud (p * qty))
    let lot_fee := if e.base_token = none then fee_aud else 0
    let unit_cost := if qty ≠ 0 then quantize_aud (total_cost / qty) else 0
    let lot : AcquisitionLot :=
      { lot_id := e.id ++ ":" ++ quote.mint
        wallet := e.wallet
        ts := e.ts
        token_mint := quote.mint
        token_symbol := quote.symbol
        qty_acquired := qty
        unit_cost_aud := unit_cost
        fees_aud := lot_fee
        remaining_qty := qty
        source_event := some e.id
        source_type := some e.kind }
    .ok (lot, add_lot ledger lot)

/-- `event.raw.get("signature") or event.id.split("#")[0]`. -/
def sigOrIdHead (sig : Option String) (event_id : String) : String :=
  match sig with
  | some s => if s = "" then (event_id.splitOn "#").headD event_id else s
  | none => (event_id.splitOn "#").headD event_id

/-- Output of the lot-move loop of `_handle_self_transfer`. -/
structure MoveLoopOut where
  consumed : List (String × Dec)
  created : List (String × Dec)
  moved : List AcquisitionLot
  ledger : List AcquisitionLot

/-- The `for (lot, qty_used), allocated_move_fee in zip(...)` loop of
`AccountingEngine._handle_self_transfer`: drains each consumed lot and
creates the destination-wallet lot that keeps the source acquisition
timestamp and unit cost. -/
def selfTransferLoop (out_e in_e : NormalizedEvent)
    (ledger : List AcquisitionLot) :
    List ((AcquisitionLot × Dec) × Dec) → MoveLoopOut
  | [] => ⟨[], [], [], ledger⟩
  | ((lotSnap, qty_used), allocated_move_fee) :: rest =>
    let lot := (getLot ledger lotSnap.lot_id).getD lotSnap
    let remaining_qty :=
      if lot.remaining_qty ≠ 0 then lot.remaining_qty else lot.qty_acquired
    let portion := if remaining_qty ≠ 0 then qty_used / remaining_qty else 0
    let moved_fees := lot.fees_aud * portion
    let fees1 := lot.fees_aud - moved_fees
    let lot1 := { lot with
      fees_aud := if fees1 < 0 then 0 else fees1
      remaining_qty := update_remaining_val lot.remaining_qty qty_used }
    let new_lot : AcquisitionLot :=
      { lot_id := lot.lot_id ++ ":move:" ++ out_e.id
        wallet := in_e.wallet
        ts := lot.ts
        token_mint := lot.token_mint
        token_symbol := lot.token_symbol
        qty_acquired := qty_used
        unit_cost_aud := lot.unit_cost_aud
        fees_aud := moved_fees + allocated_move_fee
        remaining_qty := qty_used
        source_event := some out_e.id
        source_type := some "lot_move" }
    let res := selfTransferLoop out_e in_e (add_lot (setLot ledger lot1) new_lot) rest
    ⟨(lot.lot_id, qty_used) :: res.consumed,
     (new_lot.lot_id, qty_used) :: res.created,
     new_lot :: res.moved, res.ledger⟩

/-- `AccountingEngine._handle_self_transfer`. -/
def handle_self_transfer (cfg : EngineConfig) (ledger : List AcquisitionLot)
    (m : TransferMatch) :
    Except EngineError (LotMoveRecord × List AcquisitionLot × List AcquisitionLot) :=
  let out_e := m.out_event
  let in_e := m.in_event
  match out_e.base_token, in_e.quote_token with
  | some token, some _ => do
    let fee_aud ← fee_to_aud cfg out_e
    let allocation ←
      (allocate (lots_for ledger out_e.wallet token.mint) token.amount "FIFO"
        none (some out_e.id) (some (issue_context out_e token))).mapError .lotSelection
    let move_fee_allocations := allocate_fee_over_consumed_parts allocation fee_aud
    let res := selfTransferLoop out_e in_e ledger (allocation.zip move_fee_allocations)
    let move : LotMoveRecord :=
      { tx_signature := sigOrIdHead out_e.raw.signature out_e.id
        ts := out_e.ts
        src_wallet := out_e.wallet
        dst_wallet := in_e.wallet
        mint := token.mint
        symbol := token.symbol
        amount := token.amount
        fee_aud := fee_aud
        lots_consumed := res.consumed
        lots_created := res.created }
    .ok (move, res.moved, res.ledger)
  | _, _ => .error (.valueError "Self transfer events missing token data")

/-- `AccountingEngine._handle_out_of_scope_transfer`.  An allocation failure
is downgraded to an `external_transfer_out_no_lots` warning; a successful
allocation reaches `self._external_wallet_id`, which is not an attribute of
the class (dead-code nesting in `_append_note`), so `AttributeError` is
raised before the external-bucket move, the `external_transfer_out` warning
or the `LotMoveRecord` are built (the rest of the source function is
unreachable and therefore not modelled). -/
def handle_out_of_scope_transfer (_cfg : EngineConfig)
    (ledger : List AcquisitionLot) (e : NormalizedEvent) :
    Except EngineError
      (Option LotMoveRecord × List AcquisitionLot × List WarningRecord) :=
  match e.base_token with
  | none => .ok (none, [], [])
  | some token =>
    match allocate (lots_for ledger e.wallet token.mint) token.amount "FIFO"
        none (some e.id) (some (issue_context e token)) with
    | .error exc =>
      .ok (none, [],
        [{ ts := e.ts
           wallet := some e.wallet
           signature := e.raw.signature
           code := "external_transfer_out_no_lots"
           message := exc.message }])
    | .ok _ => .error (.attributeError "_external_wallet_id")

/-- `AccountingEngine._add_synthetic_lot` (lot construction only; the caller
adds it to the ledger). -/
def add_synthetic_lot (issue : MissingLotIssue) (e : NormalizedEvent)
    (source_type : String) : AcquisitionLot :=
  { lot_id := "synthetic:" ++ e.id ++ ":" ++ issue.mint
    wallet := issue.wallet
    ts := issue.ts
    token_mint := issue.mint
    token_symbol := issue.symbol
    qty_acquired := issue.shortfall_qty
    unit_cost_aud := 0
    fees_aud := 0
    remaining_qty := issue.shortfall_qty
    source_event := some issue.event_id
    source_type := some source_type }

/-- The `missing_lots_synthetic` warning appended next to a synthetic lot. -/
def syntheticWarning (e : NormalizedEvent) : WarningRecord :=
  { ts := e.ts
    wallet := some e.wallet
    signature := e.raw.signature
    code := "missing_lots_synthetic"
    message := "Synthetic acquisition lot created to cover missing basis; gain/loss results are unreliable." }

/-- `engine._append_note` (the module-level function; `note in existing` is
substring containment). -/
def append_note (existing : Option String) (note : String) : String :=
  match existing with
  | none => note
  | some s =>
    if s = "" then note
    else if 1 < (s.splitOn note).length then s
    else s ++ "; " ++ note

/-- Python truthiness of an optional string (`None` and `""` are falsy). -/
def cpTruthy : Option String → Bool
  | none => false
  | some s => !(s == "")

/-- `not event.counterparty or event.counterparty not in wallet_set`. -/
def externalCounterparty (wallet_set : List String) (cp : Option String) :
    Bool :=
  !cpTruthy cp || !wallet_set.contains (cp.getD "")

/-- The mutable state of one `AccountingEngine.process` pass: the ledger,
the four output accumulators, the warning de-duplication sets and the
`missing_lot_issues` output list (modelled as always collected; the
`missing_price_warned` set of the source is only ever touched by the dead
`_warn_missing_price`, so it is omitted). -/
structure EngineState where
  ledger : List AcquisitionLot := []
  acquisitions : List AcquisitionLot := []
  disposals : List DisposalRecord := []
  lot_moves : List LotMoveRecord := []
  warnings : List WarningRecord := []
  swap_hint_warned : List String := []
  default_decimals_warned : List (Option String × String) := []
  missing_lot_issues : List MissingLotIssue := []
  deriving Repr, DecidableEq

/-- Keyword arguments of `AccountingEngine.process`. -/
structure ProcessArgs where
  wallets : List String := []
  transfer_matches : List TransferMatch := []
  external_lot_tracking : Bool := false
  strict_lots : Bool := true

/-- `sol_cgt/accounting/engine.py` `AccountingResult`. -/
structure AccountingResult where
  acquisitions : List AcquisitionLot
  disposals : List DisposalRecord
  lot_moves : List LotMoveRecord
  warnings : List WarningRecord
  deriving Repr, DecidableEq

/-- The result bundle returned by `process`. -/
def EngineState.result (st : EngineState) : AccountingResult :=
  ⟨st.acquisitions, st.disposals, st.lot_moves, st.warnings⟩

/-- The match-by-out branch of the `process` loop, including the
strict-vs-synthetic recovery on `LotSelectionError`. -/
def processSelfTransfer (cfg : EngineConfig) (args : ProcessArgs)
    (st : EngineState) (e : NormalizedEvent) (m : TransferMatch) :
    Except EngineError EngineState :=
  match handle_self_transfer cfg st.ledger m with
  | .ok (move, moved, ledger1) =>
    .ok { st with
          ledger := ledger1
          lot_moves := st.lot_moves ++ [move]
          acquisitions := st.acquisitions ++ moved }
  | .error (.lotSelection exc) =>
    let st1 :=
      match exc.issue with
      | some issue =>
        { st with missing_lot_issues := st.missing_lot_issues ++ [issue] }
      | none => st
    if args.strict_lots then .error (.lotSelection exc)
    else
      match exc.issue with
      | some issue =>
        let synthetic := add_synthetic_lot issue e "synthetic_missing_basis"
        let st2 := { st1 with
                     ledger := add_lot st1.ledger synthetic
                     acquisitions := st1.acquisitions ++ [synthetic]
                     warnings := st1.warnings ++ [syntheticWarning e] }
        match handle_self_transfer cfg st2.ledger m with
        | .ok (move, moved, ledger2) =>
          .ok { st2 with
                ledger := ledger2
                lot_moves := st2.lot_moves ++ [move]
                acquisitions := st2.acquisitions ++ moved }
        | .error err => .error err
      | none => .error (.lotSelection exc)
  | .error err => .error err

/-- The `external_transfer_in` warning (the `external_lot_tracking=True`
wording is unreachable: that path raises `AttributeError` at
`self._handle_external_return` first). -/
def externalTransferInWarning (e : NormalizedEvent) : WarningRecord :=
  { ts := e.ts
    wallet := some e.wallet
    signature := e.raw.signature
    code := "external_transfer_in"
    message := "Transfer in from external wallet treated as acquisition at spot price. Enable external_lot_tracking to attempt matching." }

/-- The swap-hint warning step of the `process` loop (one warning per
signature). -/
def processSwapHintWarning (st : EngineState) (e : NormalizedEvent) :
    EngineState :=
  if e.kind == "swap" then
    match e.raw.signature, e.raw.swap_hint_missing with
    | some sig, some missing =>
      if !(sig == "") && !(missing == "") && !st.swap_hint_warned.contains sig then
        { st with
          swap_hint_warned := st.swap_hint_warned ++ [sig]
          warnings := st.warnings ++
            [{ ts := e.ts
               wallet := some e.wallet
               signature := some sig
               code := "swap_hint_missing_prices"
               message := "Swap pricing hints missing for mints: " ++ missing }] }
      else st
    | _, _ => st
  else st

/-- The default-decimals warning step of the `process` loop (one warning per
`(signature, mint)`). -/
def processDefaultDecimals (st : EngineState) (e : NormalizedEvent) :
    EngineState :=
  e.raw.decimals_defaulted_mints.foldl
    (fun st mint =>
      let key := (e.raw.signature, mint)
      if st.default_decimals_warned.contains key then st
      else
        { st with
          default_decimals_warned := st.default_decimals_warned ++ [key]
          warnings := st.warnings ++
            [{ ts := e.ts
               wallet := some e.wallet
               signature := e.raw.signature
               code := "default_decimals"
               message := "Token decimals missing for mint " ++ mint ++ "; defaulted to 0. Verify token metadata." }] })
    st

/-- The disposal section of the `process` loop (`base_token` present with
positive quantity): proceeds resolution, `_handle_disposal`, and the
strict-vs-synthetic recovery with the `unreliable_missing_lots` note.
Returns the updated state together with the resolved proceeds (used as a
cost hint by the acquisition section). -/
def processDisposalSection (cfg : EngineConfig) (args : ProcessArgs)
    (st : EngineState) (e : NormalizedEvent) (base : TokenAmount)
    (fee_aud : Dec) : Except EngineError (EngineState × Dec) := do
  let proceeds_aud ← resolve_proceeds cfg e base e.quote_token
  match handle_disposal cfg st.ledger e base proceeds_aud fee_aud with
  | .ok (records, ledger1) =>
    .ok ({ st with disposals := st.disposals ++ records, ledger := ledger1 },
      proceeds_aud)
  | .error (.lotSelection exc) =>
    let st1 :=
      match exc.issue with
      | some issue =>
        { st with missing_lot_issues := st.missing_lot_issues ++ [issue] }
      | none => st
    if args.strict_lots then .error (.lotSelection exc)
    else
      match exc.issue with
      | none => .error (.lotSelection exc)
      | some issue =>
        let synthetic := add_synthetic_lot issue e "synthetic_missing_basis"
        let st2 := { st1 with
                     ledger := add_lot st1.ledger synthetic
                     acquisitions := st1.acquisitions ++ [synthetic]
                     warnings := st1.warnings ++ [syntheticWarning e] }
        match handle_disposal cfg st2.ledger e base proceeds_aud fee_aud with
        | .ok (records, ledger2) =>
          let annotated := records.map fun r =>
            { r with notes := some (append_note r.notes "unreliable_missing_lots") }
          .ok ({ st2 with
                 disposals := st2.disposals ++ annotated
                 ledger := ledger2 }, proceeds_aud)
        | .error err => .error err
  | .error err => .error err

/-- One iteration of the `for event in sorted(events, ...)` loop of
`AccountingEngine.process`, in the source's classification order. -/
def processEvent (cfg : EngineConfig) (args : ProcessArgs) (st : EngineState)
    (e : NormalizedEvent) : Except EngineError EngineState :=
  if args.transfer_matches.any (fun m => m.in_event.id == e.id) then .ok st
  else
    match args.transfer_matches.reverse.find? (fun m => m.out_event.id == e.id) with
    | some m => processSelfTransfer cfg args st e m
    | none =>
      if e.kind == "transfer_out" && e.base_token.isSome &&
          externalCounterparty args.wallets e.counterparty then
        match handle_out_of_scope_transfer cfg st.ledger e with
        | .error err => .error err
        | .ok (move?, moved, warns) =>
          .ok { st with
                lot_moves := st.lot_moves ++ move?.toList
                acquisitions := st.acquisitions ++ moved
                warnings := st.warnings ++ warns }
      else do
        let st4 ←
          if e.kind == "transfer_in" && e.quote_token.isSome &&
              externalCounterparty args.wallets e.counterparty then
            if args.external_lot_tracking then
              Except.error (EngineError.attributeError "_handle_external_return")
            else
              Except.ok { st with warnings := st.warnings ++ [externalTransferInWarning e] }
          else Except.ok st
        let st5 := processSwapHintWarning st4 e
        let st6 := processDefaultDecimals st5 e
        let fee_aud ← fee_to_aud cfg e
        let dres ←
          match e.base_token with
          | some base =>
            if 0 < base.amount then do
              let r ← processDisposalSection cfg args st6 e base fee_aud
              pure (r.1, some r.2)
            else pure (st6, none)
          | none => pure (st6, (none : Option Dec))
        let st7 := dres.1
        match e.quote_token with
        | some quote =>
          if 0 < quote.amount then do
            let r ← handle_acquisition cfg st7.ledger e quote dres.2 fee_aud
            pure { st7 with
                   ledger := r.2
                   acquisitions := st7.acquisitions ++ [r.1] }
          else pure st7
        | none => pure st7

/-- The `(ev.ts, ev.id)` sort key of the `process` event loop (and of the
reconciler's pre-sort). -/
def eventLe (a b : NormalizedEvent) : Bool :=
  a.ts < b.ts || (a.ts == b.ts && strLe a.id b.id)

/-- `AccountingEngine.process`: one pass over the chronologically sorted
events.  Returns the full engine state (`EngineState.result` projects the
`AccountingResult` bundle the source returns). -/
def process (cfg : EngineConfig) (events : List NormalizedEvent)
    (args : ProcessArgs := {}) : Except EngineError EngineState :=
  (sortStable eventLe events).foldlM (processEvent cfg args) {}

/-- `transfers._signature`: a usable signature (not absent, empty or
`"unknown"`). -/
def sigOf (e : NormalizedEvent) : Option String :=
  match e.raw.signature with
  | none => none
  | some s => if s == "" || s == "unknown" then none else some s

/-- `transfers._amount_matches` with the default tolerance `1e-8`
(`copy_abs` written out so that it computes by kernel reduction). -/
def amount_matches (a b : Dec) : Bool :=
  (if a - b < 0 then -(a - b) else a - b) ≤ 1 / 100000000

/-- `transfers._counterparty_matches`. -/
def counterparty_matches (out_e in_e : NormalizedEvent) : Bool :=
  match out_e.counterparty, in_e.counterparty with
  | some oc, some ic =>
    !(oc == "") && !(ic == "") && oc == in_e.wallet && ic == out_e.wallet
  | _, _ => false

/-- Append an event to its signature group, preserving first-appearance
order of keys (Python `defaultdict` insertion order). -/
def addToGroup (groups : List (String × List NormalizedEvent)) (s : String)
    (e : NormalizedEvent) : List (String × List NormalizedEvent) :=
  match groups with
  | [] => [(s, [e])]
  | (k, xs) :: rest =>
    if k == s then (k, xs ++ [e]) :: rest else (k, xs) :: addToGroup rest s e

/-- The `signature_groups` dictionary of `detect_self_transfers`. -/
def groupBySig (events : List NormalizedEvent) :
    List (String × List NormalizedEvent) :=
  events.foldl
    (fun acc e =>
      match sigOf e with
      | none => acc
      | some s => addToGroup acc s e)
    []

/-- The inner `for in_event in ins` scan of signature-based matching: first
unused `transfer_in` with equal mint, matching amount, different wallet and
(when both declared) mutually consistent counterparties. -/
def phase1FindIn (out_e : NormalizedEvent) (used : List String) :
    List NormalizedEvent → Option NormalizedEvent
  | [] => none
  | in_e :: rest =>
    let ok :=
      !used.contains in_e.id &&
      (match out_e.base_token, in_e.quote_token with
       | some bt, some qt => bt.mint == qt.mint && amount_matches bt.amount qt.amount
       | _, _ => false) &&
      !(out_e.wallet == in_e.wallet) &&
      (if cpTruthy out_e.counterparty && cpTruthy in_e.counterparty then
        counterparty_matches out_e in_e
      else true)
    if ok then some in_e else phase1FindIn out_e used rest

/-- The `for out_event in outs` loop of signature-based matching within one
signature group. -/
def phase1Group (ins : List NormalizedEvent) (used : List String) :
    List NormalizedEvent → List TransferMatch
  | [] => []
  | out_e :: rest =>
    match phase1FindIn out_e used ins with
    | some in_e => ⟨out_e, in_e⟩ :: phase1Group ins (in_e.id :: used) rest
    | none => phase1Group ins used rest

/-- The `outs` filter of one signature group. -/
def groupOuts (wallet_set : List String) (group : List NormalizedEvent) :
    List NormalizedEvent :=
  group.filter fun ev =>
    ev.kind == "transfer_out" && ev.base_token.isSome &&
      wallet_set.contains ev.wallet

/-- The `ins` filter of one signature group. -/
def groupIns (wallet_set : List String) (group : List NormalizedEvent) :
    List NormalizedEvent :=
  group.filter fun ev =>
    ev.kind == "transfer_in" && ev.quote_token.isSome &&
      wallet_set.contains ev.wallet

/-- The per-mint pending queue of the windowed fallback. -/
def pushQueue (pending : List (String × List NormalizedEvent)) (mint : String)
    (e : NormalizedEvent) : List (String × List NormalizedEvent) :=
  addToGroup pending mint e

/-- The `for idx, candidate in enumerate(queue)` scan of the windowed
fallback. -/
def phase2FindCandidate (e : NormalizedEvent) (qt : TokenAmount) :
    List NormalizedEvent → Option NormalizedEvent
  | [] => none
  | c :: rest =>
    let ok :=
      !(c.wallet == e.wallet) &&
      (match c.base_token with
       | some bt => amount_matches bt.amount qt.amount
       | none => false) &&
      (if cpTruthy c.counterparty && cpTruthy e.counterparty then
        counterparty_matches c e
      else true)
    if ok then some c else phase2FindCandidate e qt rest

/-- The windowed-fallback loop of `detect_self_transfers` (phase 2):
per-mint queues of pending `transfer_out` events, pruned to the window,
first candidate wins and is removed. -/
def phase2 (wallet_set : List String) (window : Int)
    (matched_ids : List String) :
    List NormalizedEvent → List (String × List NormalizedEvent) →
      List TransferMatch
  | [], _ => []
  | e :: rest, pending =>
    if (sigOf e).isSome && matched_ids.contains e.id then
      phase2 wallet_set window matched_ids rest pending
    else if e.kind == "transfer_out" then
      match e.base_token with
      | some bt =>
        if cpTruthy e.counterparty &&
            !wallet_set.contains (e.counterparty.getD "") then
          phase2 wallet_set window matched_ids rest pending
        else
          phase2 wallet_set window matched_ids rest (pushQueue pending bt.mint e)
      | none => phase2 wallet_set window matched_ids rest pending
    else if e.kind == "transfer_in" then
      match e.quote_token with
      | some qt =>
        let queue := ((pending.find? (fun p => p.1 == qt.mint)).map Prod.snd).getD []
        if queue.isEmpty then phase2 wallet_set window matched_ids rest pending
        else
          let pruned := queue.dropWhile (fun c => decide (window < e.ts - c.ts))
          match phase2FindCandidate e qt pruned with
          | some c =>
            let pending1 := pending.map fun p =>
              if p.1 == qt.mint then (p.1, pruned.filter (fun x => !(x == c))) else p
            TransferMatch.mk c e ::
              phase2 wallet_set window matched_ids rest pending1
          | none =>
            let pending1 := pending.map fun p =>
              if p.1 == qt.mint then (p.1, pruned) else p
            phase2 wallet_set window matched_ids rest pending1
      | none => phase2 wallet_set window matched_ids rest pending
    else phase2 wallet_set window matched_ids rest pending

/-- `transfers.detect_self_transfers`: signature-based matching first, then
the windowed fallback over events without a usable signature or left
unmatched by phase 1. -/
def detect_self_transfers (events : List NormalizedEvent)
    (wallets : List String) (window_minutes : Int := 5) :
    List TransferMatch :=
  let sorted_events := sortStable eventLe events
  let groups := groupBySig sorted_events
  let phase1_matches :=
    (groups.map fun g =>
      phase1Group (groupIns wallets g.2) [] (groupOuts wallets g.2)).flatten
  let matched_ids := phase1_matches.map (·.out_event.id) ++
    phase1_matches.map (·.in_event.id)
  phase1_matches ++
    phase2 wallets (window_minutes * 60) matched_ids sorted_events []

/-! ## Helper lemmas -/

theorem ratFloor_eq (x : ℚ) : ratFloor x = ⌊x⌋ := by
  rw [ratFloor, Int.fdiv_eq_ediv _ (by positivity), Rat.floor_def]

theorem roundHalfEven_intCast (n : ℤ) : roundHalfEven (n : ℚ) = n := by
  unfold roundHalfEven
  rw [ratFloor_eq, Int.floor_intCast]
  norm_num

theorem roundHalfEven_nonneg (x : ℚ) (hx : 0 ≤ x) : 0 ≤ roundHalfEven x := by
  unfold roundHalfEven
  rw [ratFloor_eq]
  have h0 : (0 : ℤ) ≤ ⌊x⌋ := Int.floor_nonneg.2 hx
  dsimp only
  split
  · exact h0
  · split
    · omega
    · split <;> omega

theorem pow10_eq (d : ℕ) : pow10 d = (10 : ℚ) ^ d := by
  unfold pow10
  push_cast
  rfl

theorem pow10_pos (d : ℕ) : 0 < pow10 d := by
  rw [pow10_eq]
  positivity

theorem quantizeScale_nonneg (d : ℕ) (x : ℚ) (hx : 0 ≤ x) :
    0 ≤ quantizeScale d x := by
  unfold quantizeScale
  have h := roundHalfEven_nonneg (x * pow10 d)
    (mul_nonneg hx (le_of_lt (pow10_pos d)))
  have h10 := pow10_pos d
  positivity

theorem quantizeScale_grid (d : ℕ) (x : ℚ) (m : ℤ)
    (hm : x * (10 : ℚ) ^ d = (m : ℚ)) : quantizeScale d x = x := by
  unfold quantizeScale
  rw [pow10_eq, hm, roundHalfEven_intCast, ← hm]
  have h10 : (10 : ℚ) ^ d ≠ 0 := by positivity
  field_simp

/-- Scenario: a price provider with no data at all. -/
def noPriceProvider : PriceProvider := fun _ _ => none

/-- Scenario: a provider that only knows the SOL price. -/
def solOnlyProvider (p : Dec) : PriceProvider :=
  fun mint _ => if mint == "SOL" then some p else none

/-- Scenario token amounts of the integer-decimals test token. -/
def tokX (n : Int) : TokenAmount := ⟨"TOKENX", some "TKX", 0, n, (n : Dec)⟩

/-! ## C1 -/

/-- Scenario: an event paying a nonzero SOL fee while the provider has no
SOL price. -/
def feeOnlyEvent : NormalizedEvent :=
  { id := "f#0", ts := 0, kind := "unknown", fee_sol := 1/1000, wallet := "W1",
    raw := { signature := some "f" } }

/-- C1: the claim says a `None` fee price makes the engine treat the fee as
zero AUD, record a `missing_fee_price` warning and continue with no
exception.  In the source, `_warn_missing_price` is nested (dead) inside
`_append_note` instead of being a method, so `_fee_to_aud` dereferences a
missing attribute and `process` aborts with `AttributeError` on the very
first event with a nonzero fee and a missing SOL price. -/
theorem process_missing_fee_price_raises :
    process { price_aud := noPriceProvider } [feeOnlyEvent] {} =
      .error (.attributeError "_warn_missing_price") ∧
    fee_to_aud { price_aud := noPriceProvider } feeOnlyEvent =
      .error (.attributeError "_warn_missing_price") := by
  with_unfolding_all decide

/-! ## C2 -/

/-- Scenario: W1 buys 10 TOKENX for 100 AUD. -/
def c2Buy : NormalizedEvent :=
  { id := "tx1#0", ts := 0, kind := "buy", quote_token := some (tokX 10),
    wallet := "W1", raw := { signature := some "tx1", cost_aud := some 100 } }

/-- Scenario: W1 sends 4 TOKENX to an address outside the tracked set. -/
def c2Out : NormalizedEvent :=
  { id := "tx2#0", ts := 86400, kind := "transfer_out",
    base_token := some (tokX 4), wallet := "W1", counterparty := some "EXT",
    raw := { signature := some "tx2" } }

/-- C2: the claim says a `transfer_out` to an untracked counterparty moves
the consumed lots into the external bucket, emits an
`external_transfer_out` warning and produces no `DisposalRecord`.  In the
source, `_external_wallet_id` is nested (dead) inside `_append_note`
instead of being a method, so `_handle_out_of_scope_transfer` raises
`AttributeError` right after a successful FIFO allocation — before any
warning, lot move or ledger change — and `process` aborts. -/
theorem process_external_transfer_out_raises :
    process { price_aud := solOnlyProvider 50 } [c2Buy, c2Out]
        { wallets := ["W1"] } =
      .error (.attributeError "_external_wallet_id") ∧
    handle_out_of_scope_transfer { price_aud := solOnlyProvider 50 }
        [⟨"tx1#0:TOKENX", "W1", 0, "TOKENX", some "TKX", 10, 10, 0, 10,
          some "tx1#0", some "buy"⟩] c2Out =
      .error (.attributeError "_external_wallet_id") := by
  with_unfolding_all decide

/-! ## C8 -/

/-- Scenario raw dictionaries exercising each proceeds-resolution rung. -/
def rawAllHints : RawData :=
  { signature := some "u", proceeds_aud := some 42, proceeds_hint_aud := some 10,
    proceeds_hint_usd := some 5 }

/-- Scenario raw with only the AUD hint and below. -/
def rawAudHint : RawData :=
  { signature := some "u", proceeds_hint_aud := some 10, proceeds_hint_usd := some 5 }

/-- Scenario raw with only the USD hint. -/
def rawUsdHint : RawData := { signature := some "u", proceeds_hint_usd := some 5 }

/-- Scenario event of a 2-TOKENX disposal with the given raw data. -/
def sellWith (raw : RawData) : NormalizedEvent :=
  { id := "u#0", ts := 0, kind := "sell", base_token := some (tokX 2),
    wallet := "W1", raw := raw }

/-- Scenario provider pricing TOKENX at 3 and TOKENQ at 7. -/
def twoTokenProvider : PriceProvider := fun mint _ =>
  if mint == "TOKENX" then some 3 else if mint == "TOKENQ" then some 7 else none

/-- Scenario quote token: 5 TOKENQ. -/
def tokQ5 : TokenAmount := ⟨"TOKENQ", some "TKQ", 0, 5, 5⟩

/-- C8: the claim lists the proceeds priority chain `proceeds_aud`,
`proceeds_hint_aud`, `proceeds_hint_usd` (converted via FX), quote price ×
quantity, base price × quantity.  The first two rungs and the last two hold,
but the `proceeds_hint_usd` rung never converts: `_convert_usd_hint` is
nested (dead) inside `_append_note` instead of being a method, so
`_resolve_proceeds` raises `AttributeError` whenever that rung is reached. -/
theorem resolve_proceeds_priority :
    resolve_proceeds { price_aud := twoTokenProvider } (sellWith rawAllHints)
      (tokX 2) (some tokQ5) = .ok 42 ∧
    resolve_proceeds { price_aud := twoTokenProvider } (sellWith rawAudHint)
      (tokX 2) (some tokQ5) = .ok 10 ∧
    resolve_proceeds { price_aud := twoTokenProvider } (sellWith rawUsdHint)
      (tokX 2) (some tokQ5) = .error (.attributeError "_convert_usd_hint") ∧
    resolve_proceeds { price_aud := twoTokenProvider } (sellWith {})
      (tokX 2) (some tokQ5) = .ok (quantize_aud (7 * 5)) ∧
    resolve_proceeds { price_aud := twoTokenProvider } (sellWith {})
      (tokX 2) none = .ok (quantize_aud (3 * 2)) := by
  with_unfolding_all decide

/-! ## C9 -/

/-- C9 counterexample: the claim says no constructible `TokenAmount` has an
`amount` disagreeing with `amount_raw / 10^decimals`, but pydantic's
validators keep a caller-supplied `Decimal` amount as-is: constructing with
`amount_raw = 5`, `decimals = 0`, `amount = Decimal("99")` yields
`amount = 99 ≠ 5`. -/
theorem tokenAmount_explicit_amount_cex :
    (mkTokenAmount "MINT" none 0 5 (some 99)).amount = 99 ∧
    ¬ ((mkTokenAmount "MINT" none 0 5 (some 99)).amount =
        ((mkTokenAmount "MINT" none 0 5 (some 99)).amount_raw : ℚ) /
          (10 : ℚ) ^ (mkTokenAmount "MINT" none 0 5 (some 99)).decimals) := by
  with_unfolding_all decide

/-- C9 (amended): when no explicit `amount` is supplied, the pydantic
validators derive `amount = amount_raw / 10^decimals` (the `quantize` in the
derivation is the identity there); a caller-supplied `Decimal` amount is
kept as-is instead of being re-derived. -/
theorem tokenAmount_amount_derived (mint : String) (symbol : Option String)
    (decimals : ℕ) (amount_raw : ℤ) :
    (mkTokenAmount mint symbol decimals amount_raw none).amount =
      (amount_raw : ℚ) / (10 : ℚ) ^ decimals := by
  show quantizeScale decimals ((amount_raw : ℚ) / pow10 decimals) = _
  rw [quantizeScale_grid decimals _ amount_raw
    (by rw [pow10_eq]; field_simp), pow10_eq]

/-! ## C10 -/

/-- C10: `allocate` called with a non-positive quantity returns the empty
allocation with no error, before candidate filtering or method-specific
validation (and, being the only reader of the lots, performs no mutation),
for every lot list, method and optional Specific-ID mapping. -/
theorem allocate_nonpositive_qty (lots : List AcquisitionLot) (qty : Dec)
    (method : String) (specific : Option SpecificLotMap)
    (event_id : Option String) (ctx : Option IssueContext) (h : qty ≤ 0) :
    allocate lots qty method specific event_id ctx = .ok [] := by
  unfold allocate
  simp [h]

/-- C10 witness: the zero-quantity short-circuit at a concrete call. -/
theorem allocate_nonpositive_qty_witness :
    (0 : Dec) ≤ 0 ∧
    allocate [⟨"L", "W", 0, "M", none, 1, 1, 0, 1, none, none⟩] 0 "SPECIFIC"
      none none none = .ok [] :=
  ⟨le_refl 0,
    allocate_nonpositive_qty _ 0 "SPECIFIC" none none none (le_refl 0)⟩

/-! ## C3 -/

/-- Scenario: W1 buys 1 TOKENX for 10 AUD (first lot). -/
def c3Buy1 : NormalizedEvent :=
  { id := "a#0", ts := 0, kind := "buy", quote_token := some (tokX 1),
    wallet := "W1", raw := { signature := some "a", cost_aud := some 10 } }

/-- Scenario: W1 buys 1 TOKENX for 10 AUD (second lot). -/
def c3Buy2 : NormalizedEvent :=
  { id := "b#0", ts := 3600, kind := "buy", quote_token := some (tokX 1),
    wallet := "W1", raw := { signature := some "b", cost_aud := some 10 } }

/-- Scenario: W1 sells 2 TOKENX across both lots, paying a 0.0001 SOL fee
(0.01 AUD at a SOL price of 100). -/
def c3Sell : NormalizedEvent :=
  { id := "c#0", ts := 7200, kind := "sell", base_token := some (tokX 2),
    fee_sol := 1/10000, wallet := "W1",
    raw := { signature := some "c", proceeds_aud := some 30 } }

/-- C3 counterexample: a disposal of 2 TOKENX split over two 1-TOKENX lots
with `fee_aud = 0.01` produces two `DisposalRecord`s whose fee shares are
`quantize_aud(0.01 × 1/2) = 0.00` each: their sum `0.00` differs from the
event's `fee_aud = 0.01`, and the last lot received its own rounded
proportional share, not the remainder.  (`_handle_disposal` quantizes each
share independently and never calls `allocate_fee_over_consumed_parts`.) -/
theorem disposal_fee_shares_not_exact_cex :
    fee_to_aud { price_aud := solOnlyProvider 100 } c3Sell = .ok (1/100) ∧
    (process { price_aud := solOnlyProvider 100 } [c3Buy1, c3Buy2, c3Sell]
        {}).map (fun st => st.disposals.map DisposalRecord.fees_aud) =
      .ok [0, 0] ∧
    ¬ ((0 : Dec) + 0 = 1/100) := by
  with_unfolding_all decide

/-- C3 (amended): the exact last-lot-remainder fee proration is implemented
by `allocate_fee_over_consumed_parts`, which the engine uses for lot-move
fee allocation (self transfers, external moves and returns): there the
per-part shares sum exactly to the total fee (whenever the consumed parts
are non-empty with a non-zero total quantity).  On `DisposalRecord`s,
`_handle_disposal` instead gives every lot — including the last — its own
independently rounded proportional share
`quantize_aud(fee_aud × qty_used / qty_disposed)`, so the recorded shares
can differ from `fee_aud` in sum by rounding. -/
theorem fee_proration_amended :
    (∀ (parts : List (AcquisitionLot × Dec)) (fee : Dec),
      parts ≠ [] → planTotal parts ≠ 0 →
      (allocate_fee_over_consumed_parts parts fee).sum = fee) ∧
    (∀ (cfg : EngineConfig) (e : NormalizedEvent) (base : TokenAmount)
        (proceeds fee : Dec) (ledger : List AcquisitionLot)
        (parts : List (AcquisitionLot × Dec)),
      0 < base.amount →
      ((disposalLoop cfg e base proceeds fee ledger parts).1).map
          DisposalRecord.fees_aud =
        parts.map (fun p => quantize_aud (fee * (p.2 / base.amount)))) := by
  constructor
  · intro parts fee h1 h2
    have hne : parts.isEmpty = false := by
      simpa [List.isEmpty_iff] using h1
    unfold allocate_fee_over_consumed_parts
    rw [hne, if_neg (by simp : ¬((false : Bool) = true))]
    dsimp only
    by_cases hfee : fee = 0
    · rw [if_pos (Or.inl hfee), hfee]
      exact List.sum_eq_zero fun x hx => by
        rcases List.mem_map.1 hx with ⟨_, _, rfl⟩
        rfl
    · rw [if_neg (by push_neg; exact ⟨hfee, h2⟩)]
      rw [List.sum_append, List.sum_cons, List.sum_nil, ← List.sum_eq_foldl]
      ring
  · intro cfg e base proceeds fee ledger parts hbase
    induction parts generalizing ledger with
    | nil => rfl
    | cons p rest ih =>
      obtain ⟨lotSnap, qty⟩ := p
      simp only [disposalLoop, List.map_cons]
      rw [if_pos hbase]
      exact congrArg _ (ih _)

/-- C3 witness: the exact lot-move fee proration at a concrete two-part
allocation with fee 0.07. -/
theorem fee_proration_amended_witness :
    ([(⟨"L1", "W", 0, "M", none, 1, 0, 0, 1, none, none⟩, (1 : Dec)),
      (⟨"L2", "W", 0, "M", none, 3, 0, 0, 3, none, none⟩, 3)] ≠
        ([] : List (AcquisitionLot × Dec))) ∧
    planTotal [(⟨"L1", "W", 0, "M", none, 1, 0, 0, 1, none, none⟩, (1 : Dec)),
      (⟨"L2", "W", 0, "M", none, 3, 0, 0, 3, none, none⟩, 3)] ≠ 0 ∧
    (allocate_fee_over_consumed_parts
      [(⟨"L1", "W", 0, "M", none, 1, 0, 0, 1, none, none⟩, (1 : Dec)),
       (⟨"L2", "W", 0, "M", none, 3, 0, 0, 3, none, none⟩, 3)] (7/100)).sum =
      7/100 :=
  ⟨by with_unfolding_all decide, by with_unfolding_all decide,
    fee_proration_amended.1 _ _ (by with_unfolding_all decide)
      (by with_unfolding_all decide)⟩

/-! ## C5 -/

/-- C5 counterexample: `update_remaining` quantizes to 9 decimal places
with round-half-even, so consuming `1e-10` from a lot holding
`remaining_qty = qty_acquired = 8e-10` (a legal state for a 10-decimals
token: `amount_raw = 8`, `decimals = 10`) rounds the remainder `7e-10` up
to `1e-9`, which exceeds `qty_acquired`: the invariant
`remaining_qty ≤ qty_acquired` is not preserved by `update_remaining`. -/
theorem update_remaining_exceeds_qty_cex :
    update_remaining_val (8/10000000000 : Dec) (1/10000000000) =
      1/1000000000 ∧
    0 ≤ (1/10000000000 : Dec) ∧
    (1/10000000000 : Dec) ≤ (8/10000000000 : Dec) ∧
    (mkTokenAmount "NANO" none 10 8 none).amount = 8/10000000000 ∧
    (8/10000000000 : Dec) < 1/1000000000 := by
  have harg : ((8/10000000000 : Dec) - 1/10000000000) * (10 : ℚ) ^ (9 : ℕ) =
      7/10 := by norm_num
  have hfloor : ⌊(7 : ℚ)/10⌋ = 0 := by norm_num
  have hrhe : roundHalfEven ((7 : ℚ)/10) = 1 := by
    unfold roundHalfEven
    rw [ratFloor_eq, hfloor]
    norm_num
  have hq : quantize9 ((8/10000000000 : Dec) - 1/10000000000) =
      1/1000000000 := by
    unfold quantize9 quantizeScale
    rw [pow10_eq, harg, hrhe]
    norm_num
  refine ⟨?_, by norm_num, by norm_num, ?_, by norm_num⟩
  · unfold update_remaining_val
    rw [hq]
    norm_num
  · show quantizeScale 10 (((8 : ℤ) : ℚ) / pow10 10) = _
    rw [quantizeScale_grid 10 _ 8 (by rw [pow10_eq]; norm_num), pow10_eq]
    norm_num

/-- The zero-clamp used for `fees_aud` and `remaining_qty` never goes
negative. -/
theorem clampZero_nonneg (x : Dec) : 0 ≤ if x < 0 then 0 else x := by
  split
  · exact le_refl 0
  · next h => exact not_lt.1 h

/-- Membership in a ledger after the in-place rewrite of one lot. -/
theorem mem_setLot {ledger : List AcquisitionLot} {lot l : AcquisitionLot}
    (h : l ∈ setLot ledger lot) : l = lot ∨ l ∈ ledger := by
  unfold setLot at h
  rcases List.mem_map.1 h with ⟨a, ha, rfl⟩
  by_cases hid : a.lot_id == lot.lot_id
  · rw [if_pos hid]
    exact Or.inl rfl
  · rw [if_neg hid]
    exact Or.inr ha

/-- C5 (amended): `update_remaining` always clamps `remaining_qty` at 0,
and keeps `remaining_qty ≤ qty_acquired` whenever the decremented remainder
lies on the 9-decimal-place quantization grid (in particular for tokens
with at most 9 decimals) — off-grid sub-nano quantities can round it above
`qty_acquired`.  The greedy FIFO/LIFO/HIFO allocation draws from each lot a
positive quantity never exceeding that lot's `remaining_qty`, and the
disposal loop keeps every ledger lot's `fees_aud` non-negative (subtracted
fee shares are clamped at 0). -/
theorem lot_invariants_amended :
    (∀ r q : Dec, 0 ≤ update_remaining_val r q) ∧
    (∀ (r q qa : Dec) (m : ℤ), (r - q) * 10 ^ 9 = (m : ℚ) → 0 ≤ q →
      r ≤ qa → 0 ≤ qa → update_remaining_val r q ≤ qa) ∧
    (∀ (lots : List AcquisitionLot) (rem : Dec) (p : AcquisitionLot × Dec),
      p ∈ (greedyAllocate lots rem).1 → 0 < p.2 ∧ p.2 ≤ p.1.remaining_qty) ∧
    (∀ (cfg : EngineConfig) (e : NormalizedEvent) (base : TokenAmount)
        (proceeds fee : Dec) (ledger : List AcquisitionLot)
        (parts : List (AcquisitionLot × Dec)),
      (∀ l ∈ ledger, 0 ≤ l.fees_aud) →
      ∀ l ∈ (disposalLoop cfg e base proceeds fee ledger parts).2,
        0 ≤ l.fees_aud) := by
  refine ⟨?_, ?_, ?_, ?_⟩
  · intro r q
    unfold update_remaining_val
    exact clampZero_nonneg _
  · intro r q qa m hm hq hr hqa
    unfold update_remaining_val
    have hgrid : quantize9 (r - q) = r - q := quantizeScale_grid 9 _ m hm
    dsimp only
    rw [hgrid]
    split
    · exact hqa
    · calc r - q ≤ r := sub_le_self r hq
        _ ≤ qa := hr
  · intro lots
    induction lots with
    | nil => intro rem p hp; simp [greedyAllocate] at hp
    | cons lot rest ih =>
      intro rem p hp
      unfold greedyAllocate at hp
      dsimp only at hp
      by_cases hrem : rem ≤ 0
      · rw [if_pos hrem] at hp; simp at hp
      · rw [if_neg hrem] at hp
        by_cases htake : 0 < min lot.remaining_qty rem
        · rw [if_pos htake] at hp
          rcases List.mem_cons.1 hp with rfl | hp
          · exact ⟨htake, min_le_left _ _⟩
          · exact ih _ _ hp
        · rw [if_neg htake] at hp
          exact ih _ _ hp
  · intro cfg e base proceeds fee ledger parts
    induction parts generalizing ledger with
    | nil => intro hled l hl; exact hled l hl
    | cons p rest ih =>
      intro hled l hl
      obtain ⟨lotSnap, qty⟩ := p
      refine ih _ ?_ l hl
      intro l' hl'
      rcases mem_setLot hl' with rfl | hl'
      · exact clampZero_nonneg _
      · exact hled l' hl'

/-- C5 witness: the amended bounds at concrete on-grid quantities
(`r = 5e-9`, `q = 2e-9`, `qa = 5e-9`) and a concrete greedy draw. -/
theorem lot_invariants_amended_witness :
    ((5/1000000000 : Dec) - 2/1000000000) * 10 ^ 9 = ((3 : ℤ) : ℚ) ∧
    0 ≤ (2/1000000000 : Dec) ∧
    (5/1000000000 : Dec) ≤ 5/1000000000 ∧
    0 ≤ (5/1000000000 : Dec) ∧
    update_remaining_val (5/1000000000) (2/1000000000) ≤ 5/1000000000 :=
  ⟨by with_unfolding_all decide, by with_unfolding_all decide, le_refl _,
    by with_unfolding_all decide,
    lot_invariants_amended.2.1 _ _ _ 3 (by with_unfolding_all decide)
      (by with_unfolding_all decide) (le_refl _)
      (by with_unfolding_all decide)⟩

/-! ## C4 -/

/-- Scenario: a 2-TOKENX disposal whose Specific-ID plan requests only 1. -/
def c4Sell : NormalizedEvent :=
  { id := "s#0", ts := 7200, kind := "sell", base_token := some (tokX 2),
    wallet := "W1", raw := { signature := some "s", proceeds_aud := some 30 } }

/-- Scenario Specific-ID mapping: event `s#0` takes 1 unit of the first
lot (total 1 ≠ disposal quantity 2). -/
def c4Map : SpecificLotMap := ⟨[("s#0", [("a#0:TOKENX", 1)])]⟩

/-- Scenario engine configured with the Specific-ID method and the
mismatched plan. -/
def c4Cfg : EngineConfig :=
  { method := "SPECIFIC", price_aud := noPriceProvider, specific := some c4Map }

/-- The first scenario lot as `_handle_acquisition` creates it. -/
def c4Lot1 : AcquisitionLot :=
  ⟨"a#0:TOKENX", "W1", 0, "TOKENX", some "TKX", 1, 10, 0, 1, some "a#0",
    some "buy"⟩

/-- The second scenario lot as `_handle_acquisition` creates it. -/
def c4Lot2 : AcquisitionLot :=
  ⟨"b#0:TOKENX", "W1", 3600, "TOKENX", some "TKX", 1, 10, 0, 1, some "b#0",
    some "buy"⟩

/-- C4: a Specific-ID plan whose requested quantities sum to anything other
than the disposal quantity is rejected by `allocate` with a
`LotSelectionError` carrying no `MissingLotIssue` (first conjunct: whenever
the plan itself builds — every referenced lot available and sufficient —
but its total differs from the quantity).  Because the issue is `None`,
`process` re-raises it under `strict_lots=True` and also under
`strict_lots=False` (the synthetic-lot recovery requires an issue), shown
on the buy-buy-sell scenario in the last two conjuncts. -/
theorem specific_mismatch_rejected :
    (∀ (lots : List AcquisitionLot) (qty : Dec) (sp : SpecificLotMap)
        (eid : String) (ctx : Option IssueContext)
        (plan : List (AcquisitionLot × Dec)),
      0 < qty →
      lots.filter (fun l => decide (0 < l.remaining_qty)) ≠ [] →
      eid ≠ "" →
      sp.lots_for eid ≠ [] →
      buildSpecificPlan (lots.filter (fun l => decide (0 < l.remaining_qty)))
        eid ctx qty
        (availableTotal (lots.filter (fun l => decide (0 < l.remaining_qty))))
        (sp.lots_for eid) = .ok plan →
      planTotal plan ≠ qty →
      allocate lots qty "SPECIFIC" (some sp) (some eid) ctx =
        .error { message := "Specific allocation quantity mismatch for " ++ eid
                 issue := none }) ∧
    process c4Cfg [c3Buy1, c3Buy2, c4Sell] { strict_lots := true } =
      .error (.lotSelection
        { message := "Specific allocation quantity mismatch for s#0"
          issue := none }) ∧
    process c4Cfg [c3Buy1, c3Buy2, c4Sell] { strict_lots := false } =
      .error (.lotSelection
        { message := "Specific allocation quantity mismatch for s#0"
          issue := none }) := by
  refine ⟨?_, by with_unfolding_all decide, by with_unfolding_all decide⟩
  intro lots qty sp eid ctx plan hqty hav heid hsel hplan hsum
  have hup : "SPECIFIC".toUpper = "SPECIFIC" := by with_unfolding_all decide
  unfold allocate
  rw [if_neg (not_le.2 hqty)]
  dsimp only
  rw [if_neg (by simpa [List.isEmpty_iff] using hav), if_pos hup,
    if_neg heid, if_neg (by simpa [List.isEmpty_iff] using hsel)]
  rw [hplan]
  show (if planTotal plan ≠ qty then _ else _) = _
  rw [if_pos hsum]

/-- C4 witness: the mismatch rejection at the scenario plan (sum 1,
quantity 2). -/
theorem specific_mismatch_rejected_witness :
    0 < (2 : Dec) ∧
    planTotal [(c4Lot1, (1 : Dec))] ≠ 2 ∧
    allocate [c4Lot1, c4Lot2] 2 "SPECIFIC" (some c4Map) (some "s#0") none =
      .error { message := "Specific allocation quantity mismatch for " ++ "s#0"
               issue := none } :=
  ⟨by norm_num, by with_unfolding_all decide,
    specific_mismatch_rejected.1 [c4Lot1, c4Lot2] 2 c4Map "s#0" none
      [(c4Lot1, 1)] (by norm_num) (by with_unfolding_all decide)
      (by with_unfolding_all decide) (by with_unfolding_all decide)
      (by with_unfolding_all decide) (by with_unfolding_all decide)⟩

/-! ## C7 -/

theorem strLtB_asymm : ∀ {as bs : List Char}, strLtB as bs = true →
    strLtB bs as = false := by
  intro as
  induction as with
  | nil =>
    intro bs h
    cases bs with
    | nil => simp [strLtB] at h
    | cons b bs => simp [strLtB]
  | cons a as ih =>
    intro bs h
    cases bs with
    | nil => simp [strLtB] at h
    | cons b bs =>
      unfold strLtB at h ⊢
      by_cases h1 : a.toNat < b.toNat
      · rw [if_neg (by omega), if_pos h1]
      · rw [if_neg h1] at h
        by_cases h2 : b.toNat < a.toNat
        · rw [if_pos h2] at h
          exact absurd h (by simp)
        · rw [if_neg h2] at h
          rw [if_neg h2, if_neg h1]
          exact ih h

theorem strLtB_irrefl : ∀ as : List Char, strLtB as as = false := by
  intro as
  induction as with
  | nil => rfl
  | cons a as ih =>
    unfold strLtB
    rw [if_neg (lt_irrefl _), if_neg (lt_irrefl _)]
    exact ih

/-- The disposal loop produces one record per consumed part, in order, with
`qty_disposed` equal to the quantity taken from that part's lot. -/
theorem disposalLoop_map_qty (cfg : EngineConfig) (e : NormalizedEvent)
    (base : TokenAmount) (proceeds fee : Dec) :
    ∀ (parts : List (AcquisitionLot × Dec)) (ledger : List AcquisitionLot),
      ((disposalLoop cfg e base proceeds fee ledger parts).1).map
        DisposalRecord.qty_disposed = parts.map Prod.snd := by
  intro parts
  induction parts with
  | nil => intro ledger; rfl
  | cons p rest ih =>
    intro ledger
    obtain ⟨lotSnap, qty⟩ := p
    simp only [disposalLoop, List.map_cons]
    exact congrArg _ (ih _)

/-- C7: under FIFO, two lots with `(ts, lot_id)` strictly ordered and
remaining quantities `q1, q2`, a disposal of `q1 + k` with `0 < k < q2`
allocates exactly `[(lot1, q1), (lot2, k)]` — whichever order the two lots
are presented in, since candidates are sorted by `(ts ascending, lot_id
ascending)` with `lot_id` (code-point order) as the tie-break — and the
disposal loop turns that allocation into exactly two `DisposalRecord`s
consuming `q1` then `k`, in that order. -/
theorem fifo_two_lot_disposal (l1 l2 : AcquisitionLot) (k : Dec)
    (hlex : l1.ts < l2.ts ∨
      (l1.ts = l2.ts ∧ strLtB l1.lot_id.data l2.lot_id.data = true))
    (hid : l1.lot_id ≠ l2.lot_id)
    (h1 : 0 < l1.remaining_qty) (h2 : 0 < l2.remaining_qty)
    (hk0 : 0 < k) (hk : k < l2.remaining_qty) :
    allocate [l1, l2] (l1.remaining_qty + k) "FIFO" none none none =
      .ok [(l1, l1.remaining_qty), (l2, k)] ∧
    allocate [l2, l1] (l1.remaining_qty + k) "FIFO" none none none =
      .ok [(l1, l1.remaining_qty), (l2, k)] ∧
    (∀ (cfg : EngineConfig) (e : NormalizedEvent) (base : TokenAmount)
        (proceeds fee : Dec) (ledger : List AcquisitionLot),
      ((disposalLoop cfg e base proceeds fee ledger
          [(l1, l1.remaining_qty), (l2, k)]).1).length = 2 ∧
      ((disposalLoop cfg e base proceeds fee ledger
          [(l1, l1.remaining_qty), (l2, k)]).1).map
        DisposalRecord.qty_disposed = [l1.remaining_qty, k]) := by
  have le12 : lotTsIdLe l1 l2 = true := by
    rcases hlex with hlt | ⟨hts, hstr⟩
    · simp [lotTsIdLe, hlt]
    · simp [lotTsIdLe, hts, strLe, hstr]
  have le21 : lotTsIdLe l2 l1 = false := by
    rcases hlex with hlt | ⟨hts, hstr⟩
    · simp [lotTsIdLe, lt_asymm hlt, ne_of_gt hlt]
    · have hne : l2.lot_id ≠ l1.lot_id := fun hEq => hid hEq.symm
      simp [lotTsIdLe, hts, strLe, strLtB_asymm hstr, hne]
  have hfifo : "FIFO".toUpper = "FIFO" := by with_unfolding_all decide
  have hgreedy : greedyAllocate [l1, l2] (l1.remaining_qty + k) =
      ([(l1, l1.remaining_qty), (l2, k)], 0) := by
    have hsub : l1.remaining_qty + k - l1.remaining_qty = k := by ring
    unfold greedyAllocate
    rw [if_neg (not_le.2 (add_pos h1 hk0)),
      min_eq_left (le_add_of_nonneg_right hk0.le), if_pos h1, hsub]
    unfold greedyAllocate
    rw [if_neg (not_le.2 hk0), min_eq_right hk.le, if_pos hk0]
    unfold greedyAllocate
    norm_num
  have horder : ∀ av : List AcquisitionLot,
      sortStable lotTsIdLe av = [l1, l2] →
      order_lots av "FIFO" = .ok [l1, l2] := by
    intro av hs
    unfold order_lots
    rw [hfifo]
    rw [if_pos rfl, hs]
  have hallocate : ∀ (lots av : List AcquisitionLot),
      lots.filter (fun l => decide (0 < l.remaining_qty)) = av →
      av.isEmpty = false → sortStable lotTsIdLe av = [l1, l2] →
      allocate lots (l1.remaining_qty + k) "FIFO" none none none =
        .ok [(l1, l1.remaining_qty), (l2, k)] := by
    intro lots av hfil hne hs
    unfold allocate
    rw [if_neg (not_le.2 (add_pos h1 hk0))]
    dsimp only
    rw [hfil, hne]
    rw [if_neg (by simp : ¬((false : Bool) = true)),
      if_neg (by rw [hfifo]; simp)]
    show (do
      let ordered ← order_lots av "FIFO"
      let res := greedyAllocate ordered (l1.remaining_qty + k)
      if 0 < res.2 then _ else .ok res.1) = _
    rw [horder av hs]
    show (let res := greedyAllocate [l1, l2] (l1.remaining_qty + k)
      if 0 < res.2 then _ else Except.ok res.1)= _
    rw [hgreedy]
    norm_num
  refine ⟨?_, ?_, ?_⟩
  · refine hallocate [l1, l2] [l1, l2] ?_ rfl ?_
    · simp [List.filter, h1, h2]
    · simp [sortStable, insertStable, le12]
  · refine hallocate [l2, l1] [l2, l1] ?_ rfl ?_
    · simp [List.filter, h1, h2]
    · simp [sortStable, insertStable, le21]
  · intro cfg e base proceeds fee ledger
    refine ⟨?_, disposalLoop_map_qty cfg e base proceeds fee _ ledger⟩
    have h := disposalLoop_map_qty cfg e base proceeds fee
      [(l1, l1.remaining_qty), (l2, k)] ledger
    have := congrArg List.length h
    simpa using this

/-- C7 witness: the two-lot FIFO decomposition at lots of 10 and 20 units
acquired at times 0 and 100, disposing 15. -/
theorem fifo_two_lot_disposal_witness :
    allocate
      [⟨"L1", "W1", 0, "TOKENX", none, 10, 1, 0, 10, none, none⟩,
       ⟨"L2", "W1", 100, "TOKENX", none, 20, 2, 0, 20, none, none⟩]
      (10 + 5) "FIFO" none none none =
      .ok [(⟨"L1", "W1", 0, "TOKENX", none, 10, 1, 0, 10, none, none⟩, 10),
           (⟨"L2", "W1", 100, "TOKENX", none, 20, 2, 0, 20, none, none⟩, 5)] :=
  (fifo_two_lot_disposal
    ⟨"L1", "W1", 0, "TOKENX", none, 10, 1, 0, 10, none, none⟩
    ⟨"L2", "W1", 100, "TOKENX", none, 20, 2, 0, 20, none, none⟩ 5
    (Or.inl (by norm_num)) (by simp) (by norm_num) (by norm_num)
    (by norm_num) (by norm_num)).1

/-! ## C6 -/

/-- Scenario: W1 buys 10 TOKENX for 100 AUD at time 0. -/
def c6Buy : NormalizedEvent :=
  { id := "tx1#0", ts := 0, kind := "buy", quote_token := some (tokX 10),
    wallet := "W1", raw := { signature := some "tx1", cost_aud := some 100 } }

/-- Scenario: W1 sends X TOKENX to W2 (signature `tx2`, a day later). -/
def c6Out (xraw : ℤ) (X : Dec) : NormalizedEvent :=
  { id := "tx2#0", ts := 86400, kind := "transfer_out",
    base_token := some ⟨"TOKENX", some "TKX", 0, xraw, X⟩,
    wallet := "W1", counterparty := some "W2",
    raw := { signature := some "tx2" } }

/-- Scenario: W2 receives X TOKENX from W1 in the same signature. -/
def c6In (xraw : ℤ) (X : Dec) : NormalizedEvent :=
  { id := "tx2#1", ts := 86400, kind := "transfer_in",
    quote_token := some ⟨"TOKENX", some "TKX", 0, xraw, X⟩,
    wallet := "W2", counterparty := some "W1",
    raw := { signature := some "tx2" } }

/-- The lot created by the scenario buy (unit cost `100/10` AUD). -/
def c6BuyLot : AcquisitionLot :=
  ⟨"tx1#0:TOKENX", "W1", 0, "TOKENX", some "TKX", 10, quantize_aud (100 / 10),
    0, 10, some "tx1#0", some "buy"⟩

/-- The destination lot the self-transfer creates in W2: the source lot's
acquisition timestamp and unit cost, quantity X. -/
def c6NewLot (X : Dec) : AcquisitionLot :=
  ⟨"tx1#0:TOKENX:move:tx2#0", "W2", 0, "TOKENX", some "TKX", X,
    quantize_aud (100 / 10), 0, X, some "tx2#0", some "lot_move"⟩

/-- The source lot after the move drained X from it. -/
def c6BuyLotAfter (X : Dec) : AcquisitionLot :=
  { c6BuyLot with fees_aud := 0, remaining_qty := update_remaining_val 10 X }

/-- The scenario's lot-move record. -/
def c6Move (X : Dec) : LotMoveRecord :=
  { tx_signature := "tx2", ts := 86400, src_wallet := "W1", dst_wallet := "W2",
    mint := "TOKENX", symbol := some "TKX", amount := X, fee_aud := 0,
    lots_consumed := [("tx1#0:TOKENX", X)],
    lots_created := [("tx1#0:TOKENX:move:tx2#0", X)] }

/-- Scenario engine: default FIFO, a provider with no data (never needed:
the buy carries `cost_aud` and the transfer pays no fee). -/
def c6Cfg : EngineConfig := { price_aud := noPriceProvider }

/-- Engine state after the buy. -/
def c6St1 : EngineState := { ledger := [c6BuyLot], acquisitions := [c6BuyLot] }

/-- Engine state after the self-transfer move. -/
def c6St2 (X : Dec) : EngineState :=
  { ledger := [c6BuyLotAfter X, c6NewLot X],
    acquisitions := [c6BuyLot, c6NewLot X],
    lot_moves := [c6Move X] }

/-- Scenario `process` arguments: both wallets tracked, the reconciler's
match supplied. -/
def c6Args (xraw : ℤ) (X : Dec) : ProcessArgs :=
  { wallets := ["W1", "W2"], transfer_matches := [⟨c6Out xraw X, c6In xraw X⟩] }

/-- C6: for a transfer_out of X TOKENX from W1 and a transfer_in of X to W2
sharing one signature (0 < X ≤ the 10-unit lot), `detect_self_transfers`
produces exactly one `TransferMatch` for the pair, and `process` with that
match produces zero `DisposalRecord`s and exactly one `LotMoveRecord`; the
lot created in W2's ledger carries the original acquisition timestamp (the
source lot's `ts = 0`, not the transfer's `ts = 86400`) and the source
lot's unit cost. -/
theorem self_transfer_scenario (xraw : ℤ) (X : Dec) (hX0 : 0 < X)
    (hX : X ≤ 10) :
    detect_self_transfers [c6Buy, c6Out xraw X, c6In xraw X] ["W1", "W2"] =
      [⟨c6Out xraw X, c6In xraw X⟩] ∧
    process c6Cfg [c6Buy, c6Out xraw X, c6In xraw X] (c6Args xraw X) =
      .ok (c6St2 X) ∧
    (c6St2 X).disposals = [] ∧
    (c6St2 X).lot_moves.length = 1 ∧
    c6NewLot X ∈ (c6St2 X).acquisitions ∧
    c6NewLot X ∈ (c6St2 X).ledger ∧
    (c6NewLot X).wallet = "W2" ∧
    (c6NewLot X).ts = c6Buy.ts ∧
    (c6NewLot X).ts ≠ (c6Out xraw X).ts ∧
    (c6NewLot X).unit_cost_aud = c6BuyLot.unit_cost_aud ∧
    (c6NewLot X).qty_acquired = X := by
  have hmatch : amount_matches X X = true := by
    unfold amount_matches
    rw [sub_self]
    norm_num
  have hdetect : detect_self_transfers [c6Buy, c6Out xraw X, c6In xraw X]
      ["W1", "W2"] = [⟨c6Out xraw X, c6In xraw X⟩] := by
    unfold detect_self_transfers
    simp only [groupBySig, sigOf, addToGroup, groupOuts, groupIns, sortStable,
      insertStable, eventLe, strLe, strLtB, phase1Group, phase1FindIn,
      counterparty_matches, cpTruthy, phase2, pushQueue, hmatch, c6Buy, c6Out,
      c6In, List.foldl, List.filter, List.map, List.flatten, List.contains]
    simp
  have hfifo : "FIFO".toUpper = "FIFO" := by with_unfolding_all decide
  have halloc : allocate [c6BuyLot] X "FIFO" none (some "tx2#0")
      (some (issue_context (c6Out xraw X)
        ⟨"TOKENX", some "TKX", 0, xraw, X⟩)) = .ok [(c6BuyLot, X)] := by
    have hgreedy : greedyAllocate [c6BuyLot] X = ([(c6BuyLot, X)], 0) := by
      unfold greedyAllocate
      rw [if_neg (not_le.2 hX0),
        show min c6BuyLot.remaining_qty X = X from min_eq_right hX,
        if_pos hX0, sub_self]
      rfl
    unfold allocate
    rw [if_neg (not_le.2 hX0)]
    dsimp only
    rw [show ([c6BuyLot].filter fun l => decide (0 < l.remaining_qty)) =
        [c6BuyLot] from by norm_num [List.filter, c6BuyLot]]
    rw [if_neg (by simp : ¬([c6BuyLot].isEmpty = true)),
      if_neg (by rw [hfifo]; simp)]
    show (do
      let ordered ← order_lots [c6BuyLot] "FIFO"
      let res := greedyAllocate ordered X
      if 0 < res.2 then _ else .ok res.1) = _
    rw [show order_lots [c6BuyLot] "FIFO" = .ok [c6BuyLot] from by
      unfold order_lots; rw [hfifo]; rfl]
    show (let res := greedyAllocate [c6BuyLot] X
      if 0 < res.2 then _ else Except.ok res.1) = _
    rw [hgreedy]
    norm_num
  have hst : handle_self_transfer c6Cfg [c6BuyLot]
      ⟨c6Out xraw X, c6In xraw X⟩ =
      .ok (c6Move X, [c6NewLot X], [c6BuyLotAfter X, c6NewLot X]) := by
    unfold handle_self_transfer
    dsimp only
    rw [show (c6Out xraw X).base_token =
          some (⟨"TOKENX", some "TKX", 0, xraw, X⟩ : TokenAmount) from rfl,
        show (c6In xraw X).quote_token =
          some (⟨"TOKENX", some "TKX", 0, xraw, X⟩ : TokenAmount) from rfl]
    dsimp only
    rw [show fee_to_aud c6Cfg (c6Out xraw X) = Except.ok (0 : Dec) from rfl]
    dsimp only [Except.bind, bind]
    rw [show lots_for [c6BuyLot] (c6Out xraw X).wallet "TOKENX" = [c6BuyLot]
        from rfl,
      show (c6Out xraw X).id = "tx2#0" from rfl, halloc]
    dsimp only [Except.mapError]
    rw [show ([(c6BuyLot, X)].zip
          (allocate_fee_over_consumed_parts [(c6BuyLot, X)] 0)) =
        [((c6BuyLot, X), (0 : Dec))] from rfl]
    simp only [selfTransferLoop]
    dsimp only [getLot, List.find?, setLot, List.map, add_lot]
    simp only [beq_self_eq_true]
    dsimp only [Option.getD]
    simp only [c6BuyLot, ne_eq, OfNat.ofNat_ne_zero, not_false_eq_true,
      if_true, zero_mul, sub_zero, add_zero, lt_self_iff_false, if_false,
      beq_self_eq_true]
    rfl
  have h1 : processEvent c6Cfg (c6Args xraw X) {} c6Buy = .ok c6St1 := rfl
  have h2 : processEvent c6Cfg (c6Args xraw X) c6St1 (c6Out xraw X) =
      .ok (c6St2 X) := by
    show processSelfTransfer c6Cfg (c6Args xraw X) c6St1 (c6Out xraw X)
      ⟨c6Out xraw X, c6In xraw X⟩ = _
    unfold processSelfTransfer
    rw [show c6St1.ledger = [c6BuyLot] from rfl, hst]
    rfl
  have h3 : processEvent c6Cfg (c6Args xraw X) (c6St2 X) (c6In xraw X) =
      .ok (c6St2 X) := rfl
  have hproc : process c6Cfg [c6Buy, c6Out xraw X, c6In xraw X]
      (c6Args xraw X) = .ok (c6St2 X) := by
    unfold process
    rw [show sortStable eventLe [c6Buy, c6Out xraw X, c6In xraw X] =
      [c6Buy, c6Out xraw X, c6In xraw X] from rfl]
    simp only [List.foldlM]
    rw [h1]
    dsimp only [Except.bind, bind]
    rw [h2]
    dsimp only [Except.bind, bind]
    rw [h3]
    rfl
  refine ⟨hdetect, hproc, rfl, rfl, by simp [c6St2], by simp [c6St2], rfl,
    rfl, show (0 : Int) ≠ 86400 by decide, rfl, rfl⟩

/-- C6 witness: the scenario at X = 4 (the spec's own end-to-end case). -/
theorem self_transfer_scenario_witness :
    (0 : Dec) < 4 ∧ (4 : Dec) ≤ 10 ∧
    process c6Cfg [c6Buy, c6Out 4 4, c6In 4 4] (c6Args 4 4) =
      .ok (c6St2 4) :=
  ⟨by norm_num, by norm_num,
    (self_transfer_scenario 4 4 (by norm_num) (by norm_num)).2.1⟩

end SolCgt
